import Mathlib

/-!
Shallow embedding of `src/index.js` of the npm-publish-action repository
(a GitHub action that conditionally tags and publishes a package).

The JavaScript program is a short sequential orchestration: it reads the CI
event payload and the package manifest, gates on the branch ref, scans commit
messages for a release marker, then (best-effort) creates and pushes a git
tag and (fatally on failure) runs a publish command.  External effects are
modelled as oracles:

* the process environment is a partial map `Env`;
* the filesystem is a pair of maps, one giving the parsed event payload at a
  path (`EventFS`) and one giving the parsed package manifest (`PkgFS`);
* subprocess execution is an oracle `SpawnOracle` assigning each spawned
  command an outcome (launch failure, or an exit code with captured stderr);
* the regular-expression engine (Node's `RegExp`, external to the repo) is an
  oracle `Capture` giving, for a pattern and a message, the first captured
  group of a successful match, or `none` when the message does not match.

Program state is a trace of events (log lines and spawned commands), and the
control flow with `await`/`throw`/`catch` is the state-and-exception functor
`M`.  The top-level error handler of `index.js` maps a `NeutralExitError` to
process exit code 78 and every other error to exit code 1 (`exitCodeOf`).
-/

namespace NpmPublish

/-- A commit of the event payload: only the `message` field is read. -/
structure Commit where
  message : String
  deriving DecidableEq, Repr

/-- The fields of the parsed event payload that `index.js` reads:
`ref`, `repository.owner.name`, `repository.owner.email`, `commits`. -/
structure EventObj where
  ref : String
  ownerName : String
  ownerEmail : String
  commits : List Commit
  deriving DecidableEq, Repr

/-- Result of `readJson` on a file: reading or parsing may fail, or yield a
parsed value. -/
inductive FileResult (α : Type) where
  | unreadable
  | parsed (a : α)
  deriving DecidableEq, Repr

/-- What `readJson` on the package manifest can yield, as far as `index.js`
inspects it: unreadable/unparseable, parsed but with `version == null`
(this also covers a null document), or parsed with a version string. -/
inductive PackageFile where
  | unreadable
  | noVersion
  | withVersion (version : String)
  deriving DecidableEq, Repr

/-- The JavaScript error values thrown by `index.js`:
`NeutralExitError` (optionally with a message), `ExitError` (carrying only
the exit code of a failed command), and plain `Error` with a message. -/
inductive JsError where
  | neutralExit (msg : Option String)
  | exitError (code : Int)
  | jsError (msg : String)
  deriving DecidableEq, Repr

/-- The `message` property of the corresponding JavaScript error. -/
def JsError.message : JsError → String
  | .neutralExit none => ""
  | .neutralExit (some m) => m
  | .exitError code => "command failed with code " ++ toString code
  | .jsError m => m

/-- Outcome of `spawn` for one command: the launch itself may fail (the
`error` event), or the process exits with a code and some captured stderr. -/
inductive SpawnResult where
  | launchFail
  | exited (code : Int) (stderr : String)
  deriving DecidableEq, Repr

/-- Observable events of a run, in order: log lines and spawned commands. -/
inductive Event where
  | log (line : String)
  | spawn (cwd : String) (command : String) (args : List String)
  deriving DecidableEq, Repr

/-- Whether an event is a subprocess invocation. -/
def Event.isSpawn : Event → Bool
  | .spawn _ _ _ => true
  | .log _ => false

abbrev Trace := List Event

/-- The subprocess invocations of a trace. -/
def spawns (t : Trace) : Trace := t.filter Event.isSpawn

/-- The process environment: a partial map from variable name to value. -/
def Env : Type := String → Option String

/-- The filesystem as seen through `readJson` on the event-payload path. -/
def EventFS : Type := String → FileResult EventObj

/-- The filesystem as seen through `readJson` on the package-manifest path. -/
def PkgFS : Type := String → PackageFile

/-- The subprocess oracle: outcome of spawning `command args` in `cwd`. -/
def SpawnOracle : Type := String → String → List String → SpawnResult

/-- The regex engine: for a pattern string and a message, the value of the
first captured group when the message matches, `none` otherwise (a match
whose group 1 is `undefined` is indistinguishable from no match for
`checkCommit`, which only compares the group against the version). -/
def Capture : Type := String → String → Option String

/-- JavaScript truthiness of an optional environment string: `undefined` and
the empty string are falsy. -/
def falsy : Option String → Bool
  | none => true
  | some s => s = ""

/-- JavaScript `a || b` on optional environment strings. -/
def jsOr (a b : Option String) : Option String := if falsy a then b else a

/-- JavaScript `a || d` where `d` is a (truthy) string literal default. -/
def jsStr (a : Option String) (d : String) : String :=
  match a with
  | none => d
  | some s => if s = "" then d else s

/-- `getEnv` of `index.js`:
`process.env[name] || process.env["INPUT_" + name]`. -/
def getEnv (env : Env) (name : String) : Option String :=
  jsOr (env name) (env ("INPUT_" ++ name))

/-- Whether `pat` occurs as a contiguous sublist at any position. -/
def containsSub : List Char → List Char → Bool
  | [], pat => pat.isEmpty
  | c :: rest, pat => List.isPrefixOf pat (c :: rest) || containsSub rest pat

/-- `str.includes(pat)` of JavaScript: `pat` occurs contiguously in `s`. -/
def strContains (s pat : String) : Bool := containsSub s.toList pat.toList

instance instDecEqExcept {ε α : Type} [DecidableEq ε] [DecidableEq α] :
    DecidableEq (Except ε α)
  | .ok a, .ok b => decidable_of_iff (a = b) (by simp)
  | .ok _, .error _ => isFalse (by simp)
  | .error _, .ok _ => isFalse (by simp)
  | .error e, .error f => decidable_of_iff (e = f) (by simp)

/-- `placeholderEnv` of `index.js`: a falsy value yields the default, a
truthy value lacking the `%s` placeholder throws, otherwise the value is
returned. -/
def placeholderEnv (env : Env) (name defaultValue : String) :
    Except JsError String :=
  match getEnv env name with
  | none => .ok defaultValue
  | some s =>
    if s = "" then .ok defaultValue
    else if strContains s "%s" then .ok s
    else .error (.jsError ("missing placeholder in variable: " ++ name))

/-- Line 9 of `index.js`:
`process.env.GITHUB_WORKSPACE || "/github/workspace"` — read directly from
the environment, not through `getEnv`. -/
def resolveDir (env : Env) : String :=
  jsStr (env "GITHUB_WORKSPACE") "/github/workspace"

/-- Lines 11–12 of `index.js`:
`process.env.GITHUB_EVENT_PATH || "/github/workflow/event.json"` — read
directly from the environment, not through `getEnv`. -/
def resolveEventPath (env : Env) : String :=
  jsStr (env "GITHUB_EVENT_PATH") "/github/workflow/event.json"

/-- The configuration record assembled in `main`. -/
structure Config where
  commitPattern : String
  tagName : String
  tagMessage : String
  authorName : String
  authorEmail : String
  publishWith : String
  deriving DecidableEq, Repr

/-- State-and-exception functor for the `async` control flow of `index.js`:
a computation appends events to the trace and either returns a value or
throws a `JsError`. -/
def M (α : Type) : Type := Trace → Except JsError α × Trace

/-- Return. -/
def M.pure {α : Type} (a : α) : M α := fun t => (.ok a, t)

/-- `await` sequencing: an error short-circuits. -/
def M.bind {α β : Type} (x : M α) (f : α → M β) : M β := fun t =>
  match x t with
  | (.ok a, t2) => f a t2
  | (.error e, t2) => (.error e, t2)

/-- `throw`. -/
def M.throw {α : Type} (e : JsError) : M α := fun t => (.error e, t)

/-- `catch`: the handler sees the error and the trace produced so far. -/
def M.catchE {α : Type} (x : M α) (h : JsError → M α) : M α := fun t =>
  match x t with
  | (.error e, t2) => h e t2
  | r => r

/-- `console.log` / `console.error`: append a log line. -/
def M.log (line : String) : M Unit := fun t => (.ok (), t ++ [.log line])

/-- Lift an `Except` into `M` (a synchronous call that may throw). -/
def M.ofExcept {α : Type} : Except JsError α → M α
  | .ok a => M.pure a
  | .error e => M.throw e

/-- Global replacement of a pattern in a character list: scan left to
right, replacing each non-overlapping occurrence, with fuel bounded by the
input length (enough, as every step consumes at least one character). -/
def replaceAux (pat rep : List Char) : Nat → List Char → List Char
  | _, [] => []
  | 0, s => s
  | fuel + 1, c :: rest =>
    if List.isPrefixOf pat (c :: rest) then
      rep ++ replaceAux pat rep fuel (List.drop (pat.length - 1) rest)
    else c :: replaceAux pat rep fuel rest

/-- `str.replace(/pat/g, rep)` of JavaScript for a literal nonempty
pattern: global, left-to-right, non-overlapping replacement. -/
def strReplaceAll (s pat rep : String) : String :=
  String.mk (replaceAux pat.toList rep.toList s.toList.length s.toList)

/-- `str.trim()` of JavaScript: strip leading and trailing whitespace. -/
def strTrim (s : String) : String :=
  String.mk (((s.toList.dropWhile Char.isWhitespace).reverse.dropWhile
    Char.isWhitespace).reverse)

/-- `run` of `index.js`: log the command, spawn it, resolve `true` on exit
code 0; on launch failure reject a plain `Error`; on a non-zero exit code
log the trimmed stderr when non-empty and reject `ExitError(code)` (the
error carries only the code). -/
def run (oracle : SpawnOracle) (cwd command : String) (args : List String) :
    M Bool := fun t =>
  let t1 := t ++ [.log ("Executing: " ++ command ++ " " ++
    String.intercalate " " args), .spawn cwd command args]
  match oracle cwd command args with
  | .launchFail => (.error (.jsError ("command failed: " ++ command)), t1)
  | .exited code stderr =>
    if code = 0 then (.ok true, t1)
    else
      let st := strTrim stderr
      let t2 := if st = "" then t1
        else t1 ++ [.log ("command failed with code " ++ toString code),
          .log st]
      (.error (.exitError code), t2)

/-- `checkCommit` of `index.js`, enriched to return the message of the
first commit whose captured group equals the version (the source logs that
message and returns `true`); `none` when no commit qualifies. -/
def checkCommit (capture : Capture) (pattern : String)
    (commits : List Commit) (version : String) : Option String :=
  match commits with
  | [] => none
  | c :: rest =>
    match capture pattern c.message with
    | some g =>
      if g = version then some c.message
      else checkCommit capture pattern rest version
    | none => checkCommit capture pattern rest version

/-- The first commit whose captured group equals the version: the
specification-side companion of `checkCommit`. -/
def findReleaseCommit (capture : Capture) (pattern : String)
    (commits : List Commit) (version : String) : Option Commit :=
  commits.find? (fun c => capture pattern c.message = some version)

/-- The test `e instanceof ExitError && e.code === 1` of `createTag`. -/
def JsError.isExitCode1 : JsError → Bool
  | .exitError c => c = 1
  | _ => false

/-- The `await run(...).catch(...)` subexpression of `createTag`: a
rev-parse failure with exit code exactly 1 means the tag does not exist;
any other error propagates. -/
def revParseTagExists (oracle : SpawnOracle) (dir tagName : String) :
    M Bool :=
  M.catchE (run oracle dir "git" ["rev-parse", "-q", "--verify",
      "refs/tags/" ++ tagName])
    (fun e => if e.isExitCode1 then M.pure false else M.throw e)

/-- `createTag` of `index.js`: render the tag name and message (global `%s`
substitution), check tag existence, throw `NeutralExitError` when the tag
already exists, otherwise configure the author identity, create the
annotated tag and push it. -/
def createTag (oracle : SpawnOracle) (dir : String) (config : Config)
    (version : String) : M Unit :=
  let tagName := strReplaceAll config.tagName "%s" version
  let tagMessage := strReplaceAll config.tagMessage "%s" version
  M.bind (revParseTagExists oracle dir tagName) fun tagExists =>
  if tagExists then
    M.bind (M.log ("Tag already exists: " ++ tagName)) fun _ =>
    M.throw (.neutralExit none)
  else
    M.bind (run oracle dir "git" ["config", "user.name",
        config.authorName]) fun _ =>
    M.bind (run oracle dir "git" ["config", "user.email",
        config.authorEmail]) fun _ =>
    M.bind (run oracle dir "git" ["tag", "-a", "-m", tagMessage,
        tagName]) fun _ =>
    M.bind (run oracle dir "git" ["push", "origin",
        "refs/tags/" ++ tagName]) fun _ =>
    M.log ("Tag has been created successfully: " ++ tagName)

/-- `publishPackage` of `index.js`: strategy `yarn` and `npm` each invoke
one publish command; any other strategy value throws a plain `Error`. -/
def publishPackage (oracle : SpawnOracle) (dir : String) (config : Config)
    (version : String) : M Unit :=
  M.bind
    (if config.publishWith = "yarn" then
      M.bind (run oracle dir "yarn" ["publish", "--non-interactive",
          "--new-version", version]) fun _ => M.pure ()
    else if config.publishWith = "npm" then
      M.bind (run oracle dir "npm" ["publish", "--access", "public"])
        fun _ => M.pure ()
    else
      M.throw (.jsError ("Unsupported publish type: " ++
        config.publishWith)))
    fun _ =>
  M.log ("Version has been published successfully: " ++ version)

/-- `processDirectory` of `index.js`: read the manifest (wrapping any read
or parse failure into a `NeutralExitError`), require a version field, scan
the commits; on a match, attempt `createTag` with every failure caught and
logged at the call site, then publish. -/
def processDirectory (capture : Capture) (oracle : SpawnOracle)
    (pkgs : PkgFS) (dir : String) (config : Config)
    (commits : List Commit) : M Unit :=
  match pkgs (dir ++ "/package.json") with
  | .unreadable =>
    M.throw (.neutralExit (some ("package file not found: " ++ dir ++
      "/package.json")))
  | .noVersion => M.throw (.jsError "missing version field!")
  | .withVersion version =>
    match checkCommit capture config.commitPattern commits version with
    | some msg =>
      M.bind (M.log ("Found commit: " ++ msg)) fun _ =>
      M.bind
        (M.catchE
          (M.bind (createTag oracle dir config version) fun _ =>
            M.log ("Tag created."))
          (fun e => M.log ("Failed to create the tag: " ++ e.message)))
        fun _ =>
      M.bind (publishPackage oracle dir config version) fun _ =>
      M.log ("Package published.")
    | none =>
      M.log
        ("No release command detected in the commit message, finishing the job.")

/-- `main` of `index.js`: resolve paths, read the event payload, gate on
the branch ref, assemble the configuration and hand over to
`processDirectory`. -/
def mainProg (env : Env) (capture : Capture) (oracle : SpawnOracle)
    (events : EventFS) (pkgs : PkgFS) : M Unit :=
  let dir := resolveDir env
  let eventFile := resolveEventPath env
  match events eventFile with
  | .unreadable =>
    M.throw (.jsError ("unable to read event file: " ++ eventFile))
  | .parsed eventObj =>
    let defaultBranch := jsStr (getEnv env "DEFAULT_BRANCH") "master"
    if eventObj.ref ≠ "refs/heads/" ++ defaultBranch then
      M.bind (M.log ("Ref " ++ eventObj.ref ++
          " is not the default branch: " ++ defaultBranch ++
          ", you must run this action on " ++ defaultBranch ++
          " branch.")) fun _ =>
      M.throw (.neutralExit none)
    else
      let commitPattern :=
        jsStr (getEnv env "COMMIT_PATTERN") "^(?:Release|Version) (\\S+)"
      M.bind (M.ofExcept (placeholderEnv env "TAG_NAME" "v%s")) fun tn =>
      M.bind (M.ofExcept (placeholderEnv env "TAG_MESSAGE" "v%s")) fun tm =>
      let config : Config :=
        { commitPattern := commitPattern
          tagName := tn
          tagMessage := tm
          authorName := jsStr (getEnv env "COMMIT_USER") eventObj.ownerName
          authorEmail :=
            jsStr (getEnv env "COMMIT_EMAIL") eventObj.ownerEmail
          publishWith := jsStr (getEnv env "PUBLISH_WITH") "yarn" }
      processDirectory capture oracle pkgs dir config eventObj.commits

/-- The top-level error handler of `index.js` (lines 205–214), as a map
from the outcome of `main` to the process exit code: resolution gives 0,
`NeutralExitError` gives 78, every other error gives 1. -/
def exitCodeOf : Except JsError Unit → Nat
  | .ok _ => 0
  | .error (.neutralExit _) => 78
  | .error _ => 1

/-- One full run of the action: the process exit code and the event trace. -/
def npmPublishAction (env : Env) (capture : Capture) (oracle : SpawnOracle)
    (events : EventFS) (pkgs : PkgFS) : Nat × Trace :=
  let r := mainProg env capture oracle events pkgs []
  (exitCodeOf r.1, r.2)

end NpmPublish

namespace NpmPublish

/-! ### Helper lemmas about the commit scan -/

/-! ### Concrete instances used by witnesses and counterexamples -/

/-- Token captured by `(\\S+)`: the maximal leading run of non-whitespace
characters, required non-empty. -/
def captureToken (rest : List Char) : Option String :=
  let tok := rest.takeWhile (fun ch => !ch.isWhitespace)
  if tok.isEmpty then none else some (String.mk tok)

/-- Behaviour of the default commit pattern
`^(?:Release|Version) (\\S+)` on a message: anchored at the start, a
literal `Release ` or `Version ` prefix followed by a captured non-empty
run of non-whitespace characters. -/
def defaultPatternCapture (message : String) : Option String :=
  let cs := message.toList
  if cs.take 8 = ("Release ".toList) then captureToken (cs.drop 8)
  else if cs.take 8 = ("Version ".toList) then captureToken (cs.drop 8)
  else none

/-- A concrete regex oracle: implements the default commit pattern and
matches nothing under any other pattern string. -/
def captureDefault : Capture := fun pattern message =>
  if pattern = "^(?:Release|Version) (\\S+)" then defaultPatternCapture message
  else none

/-- A subprocess oracle with a fixed outcome for every command. -/
def oracleConst (r : SpawnResult) : SpawnOracle := fun _ _ _ => r

/-- A subprocess oracle under which every command succeeds. -/
def oracleAllOk : SpawnOracle := oracleConst (.exited 0 "")

/-- An environment with no variables set. -/
def envEmpty : Env := fun _ => none

/-- An event payload: a push to master carrying one release commit. -/
def eventMaster : EventObj :=
  { ref := "refs/heads/master"
    ownerName := "octo"
    ownerEmail := "octo@example.com"
    commits := [{ message := "Release 1.2.3" }] }

/-- A filesystem holding `eventMaster` at the default event path. -/
def eventsAtDefault : EventFS := fun p =>
  if p = "/github/workflow/event.json" then .parsed eventMaster
  else .unreadable

/-- A filesystem on which every package manifest read fails. -/
def pkgsUnreadable : PkgFS := fun _ => .unreadable

theorem checkCommit_isSome_iff (capture : Capture) (pattern : String)
    (commits : List Commit) (version : String) :
    (checkCommit capture pattern commits version).isSome = true ↔
      ∃ c ∈ commits, capture pattern c.message = some version := by
  induction commits with
  | nil => simp [checkCommit]
  | cons c rest ih =>
    cases h : capture pattern c.message with
    | none =>
      simp only [checkCommit, h, ih, List.mem_cons]
      constructor
      · rintro ⟨cm, hm, hcm⟩
        exact ⟨cm, Or.inr hm, hcm⟩
      · rintro ⟨cm, hm | hm, hcm⟩
        · subst hm
          rw [h] at hcm
          exact absurd hcm (by simp)
        · exact ⟨cm, hm, hcm⟩
    | some g =>
      by_cases hg : g = version
      · subst hg
        rw [show checkCommit capture pattern (c :: rest) g =
          some c.message by simp [checkCommit, h]]
        simp only [Option.isSome_some, true_iff]
        exact ⟨c, List.mem_cons_self c rest, h⟩
      · simp only [checkCommit, h, if_neg hg, ih, List.mem_cons]
        constructor
        · rintro ⟨cm, hm, hcm⟩
          exact ⟨cm, Or.inr hm, hcm⟩
        · rintro ⟨cm, hm | hm, hcm⟩
          · subst hm
            rw [h] at hcm
            exact absurd (Option.some_injective _ hcm) hg
          · exact ⟨cm, hm, hcm⟩

theorem checkCommit_eq_none (capture : Capture) (pattern : String)
    (commits : List Commit) (version : String)
    (hnm : ∀ c ∈ commits, capture pattern c.message ≠ some version) :
    checkCommit capture pattern commits version = none := by
  cases h : checkCommit capture pattern commits version with
  | none => rfl
  | some msg =>
    exfalso
    have hs : (checkCommit capture pattern commits version).isSome = true := by
      rw [h]
      rfl
    obtain ⟨c, hc, hcm⟩ := (checkCommit_isSome_iff capture pattern commits
      version).mp hs
    exact hnm c hc hcm

theorem checkCommit_first (capture : Capture) (pattern : String)
    (pre post : List Commit) (c : Commit) (version : String)
    (hpre : ∀ cm ∈ pre, capture pattern cm.message ≠ some version)
    (hc : capture pattern c.message = some version) :
    checkCommit capture pattern (pre ++ c :: post) version =
      some c.message := by
  induction pre with
  | nil =>
    simp [checkCommit, hc]
  | cons p rest ih =>
    have hp : capture pattern p.message ≠ some version :=
      hpre p (List.mem_cons_self p rest)
    have hrest : ∀ cm ∈ rest, capture pattern cm.message ≠ some version :=
      fun cm hm => hpre cm (List.mem_cons_of_mem p hm)
    cases h : capture pattern p.message with
    | none =>
      simp only [List.cons_append, checkCommit, h]
      exact ih hrest
    | some g =>
      have hg : g ≠ version := by
        intro hgv
        subst hgv
        exact hp h
      simp only [List.cons_append, checkCommit, h, if_neg hg]
      exact ih hrest

theorem findReleaseCommit_first (capture : Capture) (pattern : String)
    (pre post : List Commit) (c : Commit) (version : String)
    (hpre : ∀ cm ∈ pre, capture pattern cm.message ≠ some version)
    (hc : capture pattern c.message = some version) :
    findReleaseCommit capture pattern (pre ++ c :: post) version = some c := by
  induction pre with
  | nil =>
    simp [findReleaseCommit, List.find?_cons, hc]
  | cons p rest ih =>
    have hp : capture pattern p.message ≠ some version :=
      hpre p (List.mem_cons_self p rest)
    have hrest : ∀ cm ∈ rest, capture pattern cm.message ≠ some version :=
      fun cm hm => hpre cm (List.mem_cons_of_mem p hm)
    have step := ih hrest
    simp only [findReleaseCommit] at step ⊢
    simp [List.cons_append, List.find?_cons, hp, step]

/-! ### Further fixtures for witnesses and counterexamples -/

/-- A manifest filesystem holding version 1.2.3 at the default workspace. -/
def pkgsV123 : PkgFS := fun p =>
  if p = "/github/workspace/package.json" then .withVersion "1.2.3"
  else .unreadable

/-- An environment selecting the unsupported-by-the-code strategy `skip`. -/
def envSkip : Env := fun n =>
  if n = "PUBLISH_WITH" then some "skip" else none

/-- A configuration with publish strategy `skip` and otherwise defaults. -/
def configSkip : Config :=
  { commitPattern := "^(?:Release|Version) (\\S+)"
    tagName := "v%s"
    tagMessage := "v%s"
    authorName := "octo"
    authorEmail := "octo@example.com"
    publishWith := "skip" }

/-- An environment with only the INPUT_-prefixed workspace and event-path
variables set. -/
def envGW : Env := fun n =>
  if n = "INPUT_GITHUB_WORKSPACE" then some "/custom"
  else if n = "INPUT_GITHUB_EVENT_PATH" then some "/custom/event.json"
  else none

/-- An environment with TAG_NAME explicitly set to the empty string. -/
def envEmptyTag : Env := fun n =>
  if n = "TAG_NAME" then some "" else none

/-- An environment with TAG_MESSAGE set to a value lacking the placeholder. -/
def envBadTagMessage : Env := fun n =>
  if n = "TAG_MESSAGE" then some "release" else none

/-! ### The claims -/

/-- C3: the commit scan succeeds exactly when some commit message matches
the commit pattern with its first captured group string-equal to the
manifest version; the scan selects the first such commit in payload order;
equality is literal — the default pattern captures "1.2.3" from
"Release 1.2.3", yet the scan fails against version "v1.2.3". -/
theorem C3_checkCommit_first_exact_match (capture : Capture)
    (pattern version : String) (commits pre post : List Commit) (c : Commit)
    (hpre : ∀ cm ∈ pre, capture pattern cm.message ≠ some version)
    (hc : capture pattern c.message = some version) :
    ((checkCommit capture pattern commits version).isSome = true ↔
      ∃ cm ∈ commits, capture pattern cm.message = some version) ∧
    checkCommit capture pattern (pre ++ c :: post) version =
      some c.message ∧
    findReleaseCommit capture pattern (pre ++ c :: post) version = some c ∧
    captureDefault "^(?:Release|Version) (\\S+)" "Release 1.2.3" =
      some "1.2.3" ∧
    checkCommit captureDefault "^(?:Release|Version) (\\S+)"
      [{ message := "Release 1.2.3" }] "v1.2.3" = none :=
  ⟨checkCommit_isSome_iff capture pattern commits version,
   checkCommit_first capture pattern pre post c version hpre hc,
   findReleaseCommit_first capture pattern pre post c version hpre hc,
   by decide, by decide⟩

theorem C3_witness :
    checkCommit captureDefault "^(?:Release|Version) (\\S+)"
      ([{ message := "fix bug" }] ++ { message := "Release 1.2.3" } ::
        [{ message := "Release 1.2.3 again" }]) "1.2.3" =
      some "Release 1.2.3" ∧
    findReleaseCommit captureDefault "^(?:Release|Version) (\\S+)"
      ([{ message := "fix bug" }] ++ { message := "Release 1.2.3" } ::
        [{ message := "Release 1.2.3 again" }]) "1.2.3" =
      some { message := "Release 1.2.3" } := by
  have h := C3_checkCommit_first_exact_match captureDefault
    "^(?:Release|Version) (\\S+)" "1.2.3"
    [{ message := "fix bug" }, { message := "Release 1.2.3" }]
    [{ message := "fix bug" }] [{ message := "Release 1.2.3 again" }]
    { message := "Release 1.2.3" } (by decide) (by decide)
  exact ⟨h.2.1, h.2.2.1⟩

/-- C1 (counterexample): with an unreadable package manifest (and an event
on the default branch), the run terminates with exit code 78, not 1 — the
source wraps the failed manifest read in a NeutralExitError. -/
theorem C1_counterexample :
    (npmPublishAction envEmpty captureDefault oracleAllOk eventsAtDefault
      pkgsUnreadable).1 = 78 ∧
    (npmPublishAction envEmpty captureDefault oracleAllOk eventsAtDefault
      pkgsUnreadable).1 ≠ 1 := by
  constructor
  · decide
  · decide

/-- C1 (amended): a missing or unparseable package manifest terminates the
run through a NeutralExitError carrying the "package file not found"
message, hence with process exit code 78 (the neutral-skip signal), with
no subprocess invoked by `processDirectory`. -/
theorem C1_unreadable_manifest_neutral (capture : Capture)
    (oracle : SpawnOracle) (pkgs : PkgFS) (dir : String) (config : Config)
    (commits : List Commit) (t : Trace)
    (h : pkgs (dir ++ "/package.json") = .unreadable) :
    processDirectory capture oracle pkgs dir config commits t =
      (.error (.neutralExit (some ("package file not found: " ++ dir ++
        "/package.json"))), t) ∧
    exitCodeOf
      (processDirectory capture oracle pkgs dir config commits t).1 = 78 := by
  constructor
  · simp [processDirectory, h, M.throw]
  · simp [processDirectory, h, M.throw, exitCodeOf]

theorem C1_witness :
    processDirectory captureDefault oracleAllOk pkgsUnreadable
      "/github/workspace" configSkip [] [] =
      (.error (.neutralExit
        (some "package file not found: /github/workspace/package.json")), []) ∧
    exitCodeOf (processDirectory captureDefault oracleAllOk pkgsUnreadable
      "/github/workspace" configSkip [] []).1 = 78 :=
  C1_unreadable_manifest_neutral captureDefault oracleAllOk pkgsUnreadable
    "/github/workspace" configSkip [] [] rfl

/-- C2: the publish strategy "skip" is documented by the repository as a
valid no-op, but `publishPackage` has no skip branch: it throws the plain
Error "Unsupported publish type: skip" without invoking any publish
command, and a full run with PUBLISH_WITH=skip and a matching release
commit exits with code 1. -/
theorem C2_skip_strategy_throws :
    (publishPackage oracleAllOk "/github/workspace" configSkip
      "1.2.3" []).1 = .error (.jsError "Unsupported publish type: skip") ∧
    spawns (publishPackage oracleAllOk "/github/workspace" configSkip
      "1.2.3" []).2 = [] ∧
    (npmPublishAction envSkip captureDefault oracleAllOk eventsAtDefault
      pkgsV123).1 = 1 := by
  refine ⟨by decide, by decide, by decide⟩

/-- C5 (counterexample): with GITHUB_WORKSPACE unset and
INPUT_GITHUB_WORKSPACE set, the working directory resolves to the literal
default and not to the INPUT_-prefixed value; likewise, the event path
ignores INPUT_GITHUB_EVENT_PATH. -/
theorem C5_counterexample :
    envGW "GITHUB_WORKSPACE" = none ∧
    envGW "INPUT_GITHUB_WORKSPACE" = some "/custom" ∧
    resolveDir envGW = "/github/workspace" ∧
    resolveDir envGW ≠ "/custom" ∧
    envGW "GITHUB_EVENT_PATH" = none ∧
    envGW "INPUT_GITHUB_EVENT_PATH" = some "/custom/event.json" ∧
    resolveEventPath envGW = "/github/workflow/event.json" ∧
    resolveEventPath envGW ≠ "/custom/event.json" := by
  refine ⟨rfl, rfl, by decide, by decide, rfl, rfl, by decide, by decide⟩

/-- C5 (amended): the INPUT_-prefixed fallback applies to every option read
through `getEnv` (COMMIT_PATTERN, TAG_NAME, TAG_MESSAGE, COMMIT_USER,
COMMIT_EMAIL, PUBLISH_WITH, DEFAULT_BRANCH); GITHUB_WORKSPACE and
GITHUB_EVENT_PATH are read from the plain variable only, falling back to
their literal defaults regardless of any INPUT_-prefixed value. -/
theorem C5_input_fallback (env env2 env3 : Env) (name : String)
    (h1 : env name = none)
    (h2 : env2 "GITHUB_WORKSPACE" = none)
    (h3 : env3 "GITHUB_EVENT_PATH" = none) :
    getEnv env name = env ("INPUT_" ++ name) ∧
    resolveDir env2 = "/github/workspace" ∧
    resolveEventPath env3 = "/github/workflow/event.json" := by
  refine ⟨?_, ?_, ?_⟩
  · simp [getEnv, jsOr, falsy, h1]
  · simp [resolveDir, jsStr, h2]
  · simp [resolveEventPath, jsStr, h3]

theorem C5_witness :
    getEnv envGW "GITHUB_WORKSPACE" = envGW "INPUT_GITHUB_WORKSPACE" ∧
    resolveDir envGW = "/github/workspace" ∧
    resolveEventPath envGW = "/github/workflow/event.json" :=
  C5_input_fallback envGW envGW envGW "GITHUB_WORKSPACE" rfl rfl rfl

/-- C9: an empty-string template value is falsy, hence treated as absent:
`placeholderEnv` returns the default template and raises no
missing-placeholder error; the placeholder check applies only to non-empty
provided values, for which a missing `%s` is fatal. -/
theorem C9_empty_template_uses_default (env env2 : Env)
    (name name2 dflt dflt2 s : String)
    (h : getEnv env name = some "" ∨ getEnv env name = none)
    (hs : getEnv env2 name2 = some s) (hne : s ≠ "") :
    placeholderEnv env name dflt = .ok dflt ∧
    (strContains s "%s" = true → placeholderEnv env2 name2 dflt2 = .ok s) ∧
    (strContains s "%s" = false → placeholderEnv env2 name2 dflt2 =
      .error (.jsError ("missing placeholder in variable: " ++ name2))) := by
  refine ⟨?_, ?_, ?_⟩
  · rcases h with h | h
    · simp [placeholderEnv, h]
    · simp [placeholderEnv, h]
  · intro hc
    simp [placeholderEnv, hs, hne, hc]
  · intro hc
    simp [placeholderEnv, hs, hne, hc]

theorem C9_witness :
    placeholderEnv envEmptyTag "TAG_NAME" "v%s" = .ok "v%s" ∧
    placeholderEnv envBadTagMessage "TAG_MESSAGE" "v%s" =
      .error (.jsError "missing placeholder in variable: TAG_MESSAGE") := by
  have h := C9_empty_template_uses_default envEmptyTag envBadTagMessage
    "TAG_NAME" "TAG_MESSAGE" "v%s" "v%s" "release"
    (Or.inr (by decide)) (by decide) (by decide)
  exact ⟨h.1, h.2.2 (by decide)⟩

/-! ### Trace monotonicity: computations only append events -/

/-- A computation that only ever appends to the trace it is given. -/
def AppendOnly {α : Type} (x : M α) : Prop :=
  ∀ t, ∃ s, (x t).2 = t ++ s

theorem appendOnly_pure {α : Type} (a : α) : AppendOnly (M.pure a) :=
  fun t => ⟨[], (List.append_nil t).symm⟩

theorem appendOnly_throw {α : Type} (e : JsError) :
    AppendOnly (M.throw e : M α) :=
  fun t => ⟨[], (List.append_nil t).symm⟩

theorem appendOnly_log (line : String) : AppendOnly (M.log line) :=
  fun _t => ⟨[.log line], rfl⟩

theorem appendOnly_ofExcept {α : Type} (r : Except JsError α) :
    AppendOnly (M.ofExcept r) := by
  cases r with
  | ok a => exact appendOnly_pure a
  | error e => exact appendOnly_throw e

theorem appendOnly_ite {α : Type} (c : Prop) [Decidable c] {x y : M α}
    (hx : AppendOnly x) (hy : AppendOnly y) :
    AppendOnly (if c then x else y) := by
  by_cases h : c
  · rwa [if_pos h]
  · rwa [if_neg h]

theorem appendOnly_run (oracle : SpawnOracle) (cwd c : String)
    (a : List String) : AppendOnly (run oracle cwd c a) := by
  intro t
  simp only [run]
  cases oracle cwd c a with
  | launchFail => exact ⟨_, rfl⟩
  | exited code stderr =>
    by_cases h0 : code = 0
    · simp only [if_pos h0]
      exact ⟨_, rfl⟩
    · simp only [if_neg h0]
      by_cases hs : strTrim stderr = ""
      · simp only [if_pos hs]
        exact ⟨_, rfl⟩
      · simp only [if_neg hs]
        refine ⟨[.log ("Executing: " ++ c ++ " " ++
          String.intercalate " " a), .spawn cwd c a,
          .log ("command failed with code " ++ toString code),
          .log (strTrim stderr)], ?_⟩
        simp

theorem appendOnly_bind {α β : Type} {x : M α} {f : α → M β}
    (hx : AppendOnly x) (hf : ∀ a, AppendOnly (f a)) :
    AppendOnly (M.bind x f) := by
  intro t
  obtain ⟨s1, hs1⟩ := hx t
  simp only [M.bind]
  cases hxt : x t with
  | mk r t2 =>
    rw [hxt] at hs1
    cases r with
    | error e => exact ⟨s1, hs1⟩
    | ok a =>
      obtain ⟨s2, hs2⟩ := hf a t2
      refine ⟨s1 ++ s2, ?_⟩
      have h2 : t2 = t ++ s1 := hs1
      rw [hs2, h2, List.append_assoc]

theorem appendOnly_catchE {α : Type} {x : M α} {h : JsError → M α}
    (hx : AppendOnly x) (hh : ∀ e, AppendOnly (h e)) :
    AppendOnly (M.catchE x h) := by
  intro t
  obtain ⟨s1, hs1⟩ := hx t
  simp only [M.catchE]
  cases hxt : x t with
  | mk r t2 =>
    rw [hxt] at hs1
    cases r with
    | ok a => exact ⟨s1, hs1⟩
    | error e =>
      obtain ⟨s2, hs2⟩ := hh e t2
      refine ⟨s1 ++ s2, ?_⟩
      have h2 : t2 = t ++ s1 := hs1
      rw [hs2, h2, List.append_assoc]

theorem appendOnly_revParseTagExists (oracle : SpawnOracle)
    (dir tagName : String) :
    AppendOnly (revParseTagExists oracle dir tagName) :=
  appendOnly_catchE (appendOnly_run _ _ _ _)
    (fun e => appendOnly_ite _ (appendOnly_pure false) (appendOnly_throw e))

theorem appendOnly_createTag (oracle : SpawnOracle) (dir : String)
    (config : Config) (version : String) :
    AppendOnly (createTag oracle dir config version) :=
  appendOnly_bind (appendOnly_revParseTagExists _ _ _)
    (fun _tagExists => appendOnly_ite _
      (appendOnly_bind (appendOnly_log _) (fun _ => appendOnly_throw _))
      (appendOnly_bind (appendOnly_run _ _ _ _) fun _ =>
        appendOnly_bind (appendOnly_run _ _ _ _) fun _ =>
        appendOnly_bind (appendOnly_run _ _ _ _) fun _ =>
        appendOnly_bind (appendOnly_run _ _ _ _) fun _ =>
        appendOnly_log _))

theorem appendOnly_publishPackage (oracle : SpawnOracle) (dir : String)
    (config : Config) (version : String) :
    AppendOnly (publishPackage oracle dir config version) :=
  appendOnly_bind
    (appendOnly_ite _
      (appendOnly_bind (appendOnly_run _ _ _ _) fun _ => appendOnly_pure ())
      (appendOnly_ite _
        (appendOnly_bind (appendOnly_run _ _ _ _) fun _ =>
          appendOnly_pure ())
        (appendOnly_throw _)))
    (fun _ => appendOnly_log _)

/-- Every `run` invocation records its spawn event in the trace, whatever
the outcome. -/
theorem run_spawn_mem (oracle : SpawnOracle) (cwd c : String)
    (a : List String) (t : Trace) :
    Event.spawn cwd c a ∈ (run oracle cwd c a t).2 := by
  simp only [run]
  cases oracle cwd c a with
  | launchFail => simp
  | exited code stderr =>
    by_cases h0 : code = 0
    · simp [h0]
    · by_cases hs : strTrim stderr = ""
      · simp [h0, hs]
      · simp [h0, hs]

/-- Membership in the trace is preserved by append-only computations. -/
theorem appendOnly_mem {α : Type} {x : M α} (hx : AppendOnly x) (t : Trace)
    {ev : Event} (h : ev ∈ t) : ev ∈ (x t).2 := by
  obtain ⟨s, hs⟩ := hx t
  rw [hs]
  exact List.mem_append_left _ h

/-- The spawn event of a `run` bound into a continuation stays in the final
trace, whatever the command outcome, provided the continuation is
append-only. -/
theorem mem_bind_run {β : Type} (oracle : SpawnOracle) (cwd c : String)
    (a : List String) (k : Bool → M β) (hk : ∀ b, AppendOnly (k b))
    (t : Trace) :
    Event.spawn cwd c a ∈ (M.bind (run oracle cwd c a) k t).2 := by
  simp only [M.bind]
  cases hr : run oracle cwd c a t with
  | mk r t2 =>
    have hm : Event.spawn cwd c a ∈ t2 := by
      have hsp := run_spawn_mem oracle cwd c a t
      rw [hr] at hsp
      exact hsp
    cases r with
    | error e => exact hm
    | ok b => exact appendOnly_mem (hk b) t2 hm

/-- C10: in the tag-existence check, a rev-parse failure with exit code
exactly 1 is interpreted as "the tag does not exist" and tagging proceeds
to the identity-setup step (its git-config spawn is recorded); a rev-parse
failure with any other non-zero exit code, and a launch failure, propagate
as the error of the tagging phase. -/
theorem C10_revparse_code1_means_absent (oracle1 oracle3 oracleL : SpawnOracle)
    (dir : String) (config : Config) (version : String) (t : Trace)
    (code3 : Int) (s1 s3 : String)
    (h1 : oracle1 dir "git" ["rev-parse", "-q", "--verify", "refs/tags/" ++
      strReplaceAll config.tagName "%s" version] = .exited 1 s1)
    (h3 : oracle3 dir "git" ["rev-parse", "-q", "--verify", "refs/tags/" ++
      strReplaceAll config.tagName "%s" version] = .exited code3 s3)
    (hc0 : code3 ≠ 0) (hc1 : code3 ≠ 1)
    (hL : oracleL dir "git" ["rev-parse", "-q", "--verify", "refs/tags/" ++
      strReplaceAll config.tagName "%s" version] = .launchFail) :
    (revParseTagExists oracle1 dir
      (strReplaceAll config.tagName "%s" version) t).1 = .ok false ∧
    Event.spawn dir "git" ["config", "user.name", config.authorName] ∈
      (createTag oracle1 dir config version t).2 ∧
    (createTag oracle3 dir config version t).1 =
      .error (.exitError code3) ∧
    (createTag oracleL dir config version t).1 =
      .error (.jsError "command failed: git") := by
  have hrev1 : ∀ t' : Trace, (revParseTagExists oracle1 dir
      (strReplaceAll config.tagName "%s" version) t').1 = .ok false := by
    intro t'
    simp only [revParseTagExists, M.catchE]
    cases hr : run oracle1 dir "git" ["rev-parse", "-q", "--verify",
        "refs/tags/" ++ strReplaceAll config.tagName "%s" version] t' with
    | mk r tr =>
      have hfst : r = .error (.exitError 1) := by
        have hx : (run oracle1 dir "git" ["rev-parse", "-q", "--verify",
            "refs/tags/" ++ strReplaceAll config.tagName "%s" version]
            t').1 = .error (.exitError 1) := by
          simp [run, h1]
        rw [hr] at hx
        exact hx
      rw [hfst]
      simp [JsError.isExitCode1, M.pure]
  have hrev3 : ∀ t' : Trace, (revParseTagExists oracle3 dir
      (strReplaceAll config.tagName "%s" version) t').1 =
      .error (.exitError code3) := by
    intro t'
    simp only [revParseTagExists, M.catchE]
    cases hr : run oracle3 dir "git" ["rev-parse", "-q", "--verify",
        "refs/tags/" ++ strReplaceAll config.tagName "%s" version] t' with
    | mk r tr =>
      have hfst : r = .error (.exitError code3) := by
        have hx : (run oracle3 dir "git" ["rev-parse", "-q", "--verify",
            "refs/tags/" ++ strReplaceAll config.tagName "%s" version]
            t').1 = .error (.exitError code3) := by
          simp [run, h3, hc0]
        rw [hr] at hx
        exact hx
      rw [hfst]
      simp [JsError.isExitCode1, hc1, M.throw]
  have hrevL : ∀ t' : Trace, (revParseTagExists oracleL dir
      (strReplaceAll config.tagName "%s" version) t').1 =
      .error (.jsError "command failed: git") := by
    intro t'
    simp only [revParseTagExists, M.catchE]
    cases hr : run oracleL dir "git" ["rev-parse", "-q", "--verify",
        "refs/tags/" ++ strReplaceAll config.tagName "%s" version] t' with
    | mk r tr =>
      have hfst : r = .error (.jsError "command failed: git") := by
        have hx : (run oracleL dir "git" ["rev-parse", "-q", "--verify",
            "refs/tags/" ++ strReplaceAll config.tagName "%s" version]
            t').1 = .error (.jsError "command failed: git") := by
          simp [run, hL]
        rw [hr] at hx
        exact hx
      rw [hfst]
      simp [JsError.isExitCode1, M.throw]
  refine ⟨hrev1 t, ?_, ?_, ?_⟩
  · simp only [createTag, M.bind]
    cases hr : revParseTagExists oracle1 dir
        (strReplaceAll config.tagName "%s" version) t with
    | mk r tr =>
      have hfst : r = .ok false := by
        have hx := hrev1 t
        rw [hr] at hx
        exact hx
      rw [hfst]
      simp only [Bool.false_eq_true, if_false]
      exact mem_bind_run oracle1 dir "git"
        ["config", "user.name", config.authorName] _
        (fun _ => appendOnly_bind (appendOnly_run _ _ _ _) fun _ =>
          appendOnly_bind (appendOnly_run _ _ _ _) fun _ =>
          appendOnly_bind (appendOnly_run _ _ _ _) fun _ =>
          appendOnly_log _) tr
  · simp only [createTag, M.bind]
    cases hr : revParseTagExists oracle3 dir
        (strReplaceAll config.tagName "%s" version) t with
    | mk r tr =>
      have hfst : r = .error (.exitError code3) := by
        have hx := hrev3 t
        rw [hr] at hx
        exact hx
      rw [hfst]
  · simp only [createTag, M.bind]
    cases hr : revParseTagExists oracleL dir
        (strReplaceAll config.tagName "%s" version) t with
    | mk r tr =>
      have hfst : r = .error (.jsError "command failed: git") := by
        have hx := hrevL t
        rw [hr] at hx
        exact hx
      rw [hfst]

/-- A subprocess oracle under which git commands fail with exit code 1
and everything else succeeds. -/
def oracleGitExit1 : SpawnOracle := fun _ c _ =>
  if c = "git" then .exited 1 "" else .exited 0 ""

/-- A subprocess oracle under which git commands fail with exit code 128
and everything else succeeds. -/
def oracleGitExit128 : SpawnOracle := fun _ c _ =>
  if c = "git" then .exited 128 "fatal: not a git repository" else
    .exited 0 ""

/-- A subprocess oracle under which git commands fail to launch and
everything else succeeds. -/
def oracleGitLaunchFail : SpawnOracle := fun _ c _ =>
  if c = "git" then .launchFail else .exited 0 ""

/-- A configuration with the yarn strategy and otherwise defaults. -/
def configYarn : Config :=
  { commitPattern := "^(?:Release|Version) (\\S+)"
    tagName := "v%s"
    tagMessage := "v%s"
    authorName := "octo"
    authorEmail := "octo@example.com"
    publishWith := "yarn" }

theorem C10_witness :
    (revParseTagExists oracleGitExit1 "/github/workspace"
      (strReplaceAll configYarn.tagName "%s" "1.2.3") []).1 = .ok false ∧
    Event.spawn "/github/workspace" "git" ["config", "user.name", "octo"] ∈
      (createTag oracleGitExit1 "/github/workspace" configYarn "1.2.3" []).2 ∧
    (createTag oracleGitExit128 "/github/workspace" configYarn "1.2.3" []).1 =
      .error (.exitError 128) ∧
    (createTag oracleGitLaunchFail "/github/workspace" configYarn
      "1.2.3" []).1 = .error (.jsError "command failed: git") := by
  have h := C10_revparse_code1_means_absent oracleGitExit1 oracleGitExit128
    oracleGitLaunchFail "/github/workspace" configYarn "1.2.3" [] 128 ""
    "fatal: not a git repository" rfl rfl (by decide) (by decide) rfl
  exact ⟨h.1, h.2.1, h.2.2.1, h.2.2.2⟩

/-- C4 (counterexample): the error raised for a non-zero exit carries only
the exit code — no function of the error value can recover the captured
stderr text, and two invocations differing only in their stderr yield the
same error. -/
theorem C4_counterexample :
    (¬ ∃ f : JsError → String,
      ∀ stderr : String,
        match (run (oracleConst (.exited 2 stderr)) "/github/workspace"
            "git" ["push", "origin", "refs/tags/v1.2.3"] []).1 with
        | .error e => f e = stderr
        | .ok _ => False) ∧
    (run (oracleConst (.exited 2 "boom")) "/github/workspace" "git"
        ["push", "origin", "refs/tags/v1.2.3"] []).1 =
      (run (oracleConst (.exited 2 "zap")) "/github/workspace" "git"
        ["push", "origin", "refs/tags/v1.2.3"] []).1 := by
  constructor
  · rintro ⟨f, hf⟩
    have hb : f (JsError.exitError 2) = "boom" := hf "boom"
    have hz : f (JsError.exitError 2) = "zap" := hf "zap"
    exact absurd (hb.symm.trans hz) (by decide)
  · rfl

/-- C4 (amended): on a non-zero exit code the invocation fails with an
ExitError carrying that exit code, and the trimmed stderr text, when
non-empty, is logged before the rejection — the error value itself does
not carry the stderr; on exit code 0 the invocation resolves with true. -/
theorem C4_run_exit_semantics (oracle : SpawnOracle) (cwd c1 c2 : String)
    (a1 a2 : List String) (t1 t2 : Trace) (code : Int) (s1 s2 : String)
    (h1 : oracle cwd c1 a1 = .exited code s1) (hc : code ≠ 0)
    (h2 : oracle cwd c2 a2 = .exited 0 s2) :
    (run oracle cwd c1 a1 t1).1 = .error (.exitError code) ∧
    (strTrim s1 ≠ "" →
      Event.log (strTrim s1) ∈ (run oracle cwd c1 a1 t1).2) ∧
    (run oracle cwd c2 a2 t2).1 = .ok true := by
  refine ⟨?_, ?_, ?_⟩
  · simp [run, h1, hc]
  · intro hs
    simp [run, h1, hc, hs]
  · simp [run, h2]

/-- A subprocess oracle under which git commands fail with exit code 2 and
stderr needing a trim, and everything else succeeds. -/
def oracleGitExit2 : SpawnOracle := fun _ c _ =>
  if c = "git" then .exited 2 " boom " else .exited 0 ""

theorem C4_witness :
    (run oracleGitExit2 "/github/workspace" "git"
      ["push", "origin", "refs/tags/v1.2.3"] []).1 =
      .error (.exitError 2) ∧
    Event.log (strTrim " boom ") ∈ (run oracleGitExit2 "/github/workspace"
      "git" ["push", "origin", "refs/tags/v1.2.3"] []).2 ∧
    (run oracleGitExit2 "/github/workspace" "yarn"
      ["publish", "--non-interactive", "--new-version", "1.2.3"] []).1 =
      .ok true := by
  have h := C4_run_exit_semantics oracleGitExit2 "/github/workspace" "git"
    "yarn" ["push", "origin", "refs/tags/v1.2.3"]
    ["publish", "--non-interactive", "--new-version", "1.2.3"] [] [] 2
    " boom " "" rfl (by decide) rfl
  exact ⟨h.1, h.2.1 (by decide), h.2.2⟩

/-- C6: once the decision engine has approved a release (a matching
commit exists and the manifest has a version), any failure of `createTag`
— identity setup, tag creation, tag push, and also the neutral "tag
already exists" throw — is caught at the call site and logged, the run is
not aborted there, and the publish step still executes: the final outcome
of `processDirectory` is exactly the outcome of `publishPackage` run on
the post-failure trace. -/
theorem C6_tag_failure_swallowed (capture : Capture) (oracle : SpawnOracle)
    (pkgs : PkgFS) (dir : String) (config : Config) (commits : List Commit)
    (version msg : String) (e : JsError) (t tTag : Trace)
    (hpkg : pkgs (dir ++ "/package.json") = .withVersion version)
    (hcc : checkCommit capture config.commitPattern commits version =
      some msg)
    (hct : createTag oracle dir config version
      (t ++ [.log ("Found commit: " ++ msg)]) = (.error e, tTag)) :
    processDirectory capture oracle pkgs dir config commits t =
      (match publishPackage oracle dir config version
          (tTag ++ [.log ("Failed to create the tag: " ++ e.message)]) with
       | (.ok _, t3) => (.ok (), t3 ++ [.log ("Package published.")])
       | (.error e2, t3) => (.error e2, t3)) := by
  simp only [processDirectory, hpkg, hcc, M.bind, M.catchE, M.log, M.pure]
  rw [hct]
  cases hpub : publishPackage oracle dir config version
      (tTag ++ [Event.log ("Failed to create the tag: " ++ e.message)]) with
  | mk r t3 =>
    cases r with
    | ok a => simp [hpub]
    | error e2 => simp [hpub]

theorem C6_witness :
    (processDirectory captureDefault oracleAllOk pkgsV123
      "/github/workspace" configYarn
      [{ message := "Release 1.2.3" }] []).1 = .ok () ∧
    Event.spawn "/github/workspace" "yarn"
        ["publish", "--non-interactive", "--new-version", "1.2.3"] ∈
      (processDirectory captureDefault oracleAllOk pkgsV123
        "/github/workspace" configYarn
        [{ message := "Release 1.2.3" }] []).2 := by
  have h := C6_tag_failure_swallowed captureDefault oracleAllOk pkgsV123
    "/github/workspace" configYarn [{ message := "Release 1.2.3" }] "1.2.3"
    "Release 1.2.3" (.neutralExit none) []
    [Event.log "Found commit: Release 1.2.3",
     Event.log "Executing: git rev-parse -q --verify refs/tags/v1.2.3",
     Event.spawn "/github/workspace" "git"
       ["rev-parse", "-q", "--verify", "refs/tags/v1.2.3"],
     Event.log "Tag already exists: v1.2.3"]
    (by decide) (by decide) (by decide)
  constructor
  · rw [h]
    decide
  · rw [h]
    decide

/-- C7: on the default branch with a versioned manifest, when no commit
message captures the manifest version, the run completes with process exit
code 0 and invokes no subprocess (given that the template inputs resolve,
which happens before the scan). -/
theorem C7_no_match_clean_exit (env : Env) (capture : Capture)
    (oracle : SpawnOracle) (events : EventFS) (pkgs : PkgFS) (ev : EventObj)
    (version tn tm : String)
    (hev : events (resolveEventPath env) = .parsed ev)
    (href : ev.ref = "refs/heads/" ++
      jsStr (getEnv env "DEFAULT_BRANCH") "master")
    (hpkg : pkgs (resolveDir env ++ "/package.json") = .withVersion version)
    (htn : placeholderEnv env "TAG_NAME" "v%s" = .ok tn)
    (htm : placeholderEnv env "TAG_MESSAGE" "v%s" = .ok tm)
    (hnm : ∀ c ∈ ev.commits, capture (jsStr (getEnv env "COMMIT_PATTERN")
      "^(?:Release|Version) (\\S+)") c.message ≠ some version) :
    (npmPublishAction env capture oracle events pkgs).1 = 0 ∧
    spawns (npmPublishAction env capture oracle events pkgs).2 = [] := by
  have hcc := checkCommit_eq_none capture
    (jsStr (getEnv env "COMMIT_PATTERN") "^(?:Release|Version) (\\S+)")
    ev.commits version hnm
  have hmain : mainProg env capture oracle events pkgs [] =
      (.ok (), [Event.log
        ("No release command detected in the commit message, finishing the job.")]) := by
    simp only [mainProg, hev]
    rw [if_neg (by simp [href])]
    simp only [htn, htm, M.ofExcept, M.bind, M.pure]
    simp only [processDirectory, hpkg, hcc, M.log, List.nil_append]
  constructor
  · simp [npmPublishAction, hmain, exitCodeOf]
  · simp [npmPublishAction, hmain, spawns, Event.isSpawn]

/-- An event payload on master whose commits carry no matching release
marker for manifest version 2.0.0. -/
def eventNoMatch : EventObj :=
  { ref := "refs/heads/master"
    ownerName := "octo"
    ownerEmail := "octo@example.com"
    commits := [{ message := "fix bug" }, { message := "Release 1.9.9" }] }

/-- A filesystem holding `eventNoMatch` at the default event path. -/
def eventsNoMatch : EventFS := fun p =>
  if p = "/github/workflow/event.json" then .parsed eventNoMatch
  else .unreadable

/-- A manifest filesystem holding version 2.0.0 at the default workspace. -/
def pkgsV200 : PkgFS := fun p =>
  if p = "/github/workspace/package.json" then .withVersion "2.0.0"
  else .unreadable

theorem C7_witness :
    (npmPublishAction envEmpty captureDefault oracleAllOk eventsNoMatch
      pkgsV200).1 = 0 ∧
    spawns (npmPublishAction envEmpty captureDefault oracleAllOk
      eventsNoMatch pkgsV200).2 = [] :=
  C7_no_match_clean_exit envEmpty captureDefault oracleAllOk eventsNoMatch
    pkgsV200 eventNoMatch "2.0.0" "v%s" "v%s" (by decide) (by decide)
    (by decide) (by decide) (by decide) (by decide)

/-- C8: when the event ref differs from `refs/heads/<default-branch>`
(default branch defaulting to "master"), the run terminates with the
neutral-skip exit code 78 and no subprocess is invoked — no decision
logic past the branch gate runs. -/
theorem C8_branch_gate_neutral (env : Env) (capture : Capture)
    (oracle : SpawnOracle) (events : EventFS) (pkgs : PkgFS) (ev : EventObj)
    (hev : events (resolveEventPath env) = .parsed ev)
    (href : ev.ref ≠ "refs/heads/" ++
      jsStr (getEnv env "DEFAULT_BRANCH") "master") :
    (npmPublishAction env capture oracle events pkgs).1 = 78 ∧
    spawns (npmPublishAction env capture oracle events pkgs).2 = [] := by
  have hmain : mainProg env capture oracle events pkgs [] =
      (.error (.neutralExit none),
        [Event.log ("Ref " ++ ev.ref ++ " is not the default branch: " ++
          jsStr (getEnv env "DEFAULT_BRANCH") "master" ++
          ", you must run this action on " ++
          jsStr (getEnv env "DEFAULT_BRANCH") "master" ++ " branch.")]) := by
    simp only [mainProg, hev]
    rw [if_pos href]
    simp [M.bind, M.log, M.throw]
  constructor
  · simp [npmPublishAction, hmain, exitCodeOf]
  · simp [npmPublishAction, hmain, spawns, Event.isSpawn]

/-- An event payload for a push to a non-default branch. -/
def eventDev : EventObj :=
  { ref := "refs/heads/dev"
    ownerName := "octo"
    ownerEmail := "octo@example.com"
    commits := [{ message := "Release 1.2.3" }] }

/-- A filesystem holding `eventDev` at the default event path. -/
def eventsDev : EventFS := fun p =>
  if p = "/github/workflow/event.json" then .parsed eventDev
  else .unreadable

theorem C8_witness :
    (npmPublishAction envEmpty captureDefault oracleAllOk eventsDev
      pkgsV123).1 = 78 ∧
    spawns (npmPublishAction envEmpty captureDefault oracleAllOk eventsDev
      pkgsV123).2 = [] :=
  C8_branch_gate_neutral envEmpty captureDefault oracleAllOk eventsDev
    pkgsV123 eventDev (by decide) (by decide)

end NpmPublish
